import Mathlib

/- Verification development for the people-counter video pipeline
   (src/cv/video_processing).  Python floats are modelled as exact
   rationals, Python ints as `Int`, Python dicts as association lists
   that preserve insertion order (as CPython dicts do).  Each definition
   is a direct transcription of the named source function. -/

namespace PeopleCounter

/- ---------------------------------------------------------------
   Geometry primitives (src/cv/video_processing/geometry.py)
   --------------------------------------------------------------- -/

/-- Transcription of `side_of_gate` (geometry.py lines 19-44).
Returns which side of a gate segment a point is on: 0 when the point's x
falls outside the gate's x-span (plus margin) or inside the dead-zone
band, -1 when clearly above, +1 when clearly below. -/
def side_of_gate (x y : ℚ) (x1 y1 x2 y2 margin : Int) : Int :=
  let min_x : Int := min x1 x2
  let max_x : Int := max x1 x2
  if x < ((min_x - margin : Int) : ℚ) ∨ ((max_x + margin : Int) : ℚ) < x then 0
  else
    let dx : Int := x2 - x1
    if dx = 0 then
      if x < ((x1 - margin : Int) : ℚ) then -1
      else if ((x1 + margin : Int) : ℚ) < x then 1
      else 0
    else
      let t : ℚ := (x - (x1 : ℚ)) / ((dx : Int) : ℚ)
      let y_on_gate : ℚ := (y1 : ℚ) + t * (((y2 - y1 : Int)) : ℚ)
      if y < y_on_gate - (margin : ℚ) then -1
      else if y_on_gate + (margin : ℚ) < y then 1
      else 0

/-- Transcription of `crossing_direction` (geometry.py lines 47-53). -/
def crossing_direction (prev_side curr_side : Int) : Option String :=
  if prev_side = -1 ∧ curr_side = 1 then some "down"
  else if prev_side = 1 ∧ curr_side = -1 then some "up"
  else none

/-- Transcription of `clamp_segment` (geometry.py lines 56-62): clamp both
x-endpoints into `[0, width]` and sort them. -/
def clamp_segment (x1 x2 width : Int) : Int × Int :=
  if max 0 (min width x2) < max 0 (min width x1) then
    (max 0 (min width x2), max 0 (min width x1))
  else
    (max 0 (min width x1), max 0 (min width x2))

/- ---------------------------------------------------------------
   Crossing state machine (src/cv/video_processing/pipeline.py,
   run_people_counter lines 143-157), projected onto a single track
   identity and a single boundary.
   --------------------------------------------------------------- -/

/-- Combined per-(track, boundary) state: the boundary's `entered`/`left`
counters (models.RoomStats) together with the track's stored last stable
side for that boundary (`None` before a baseline is established). -/
structure CounterState where
  entered : Nat
  left : Nat
  side : Option Int
deriving DecidableEq

/-- One evaluation of the crossing update in `run_people_counter`
(pipeline.py lines 143-157) for one track identity and one boundary:
`dir` is the room's configured entry direction and `curr` the
classification produced by `side_of_gate`. -/
def stepSide (dir : String) (s : CounterState) (curr : Int) : CounterState :=
  match s.side with
  | none => if curr ≠ 0 then { s with side := some curr } else s
  | some prev =>
    if curr ≠ 0 ∧ curr ≠ prev then
      match crossing_direction prev curr with
      | some d =>
        if d = dir then
          { entered := s.entered + 1, left := s.left, side := some curr }
        else
          { entered := s.entered, left := s.left + 1, side := some curr }
      | none => { s with side := some curr }
    else if curr ≠ 0 then { s with side := some curr } else s

/-- Feeding a whole sequence of classified samples through the crossing
state machine, one frame at a time. -/
def runSides (dir : String) (s : CounterState) (xs : List Int) : CounterState :=
  xs.foldl (stepSide dir) s

/-- Signed contribution of one side transition relative to the configured
entry direction: +1 for an entry transition, -1 for an exit transition,
0 when `crossing_direction` reports no direction. -/
def transitionDelta (dir : String) (p c : Int) : Int :=
  match crossing_direction p c with
  | some d => if d = dir then 1 else -1
  | none => 0

/-- Net signed transition count of a sequence read from a given previous
stable side. -/
def netFrom (dir : String) : Int → List Int → Int
  | _, [] => 0
  | p, c :: rest => transitionDelta dir p c + netFrom dir c rest

/-- Net number of genuine alternating non-ambiguous side transitions of a
sample sequence: ambiguous (0) samples are discarded, the first remaining
sample is the baseline, and each later change of side contributes +1 or
-1 according to the entry direction. -/
def netTransitions (dir : String) (xs : List Int) : Int :=
  match xs.filter (fun x => x ≠ 0) with
  | [] => 0
  | p :: rest => netFrom dir p rest

/-- Displayed occupancy (pipeline.py line 197 and line 232):
`max(0, initial_occupancy + entered - left)`. -/
def occupancy (initial_occupancy : Int) (entered left : Nat) : Int :=
  max 0 (initial_occupancy + (entered : Int) - (left : Int))

/- Helper lemmas about the state machine. -/

lemma runSides_nil (dir : String) (s : CounterState) : runSides dir s [] = s := rfl

lemma runSides_cons (dir : String) (s : CounterState) (x : Int) (xs : List Int) :
    runSides dir s (x :: xs) = runSides dir (stepSide dir s x) xs := rfl

lemma stepSide_zero (dir : String) (s : CounterState) : stepSide dir s 0 = s := by
  rcases s with ⟨e, l, side⟩
  cases side <;> simp [stepSide]

/-- Ambiguous (0) samples are no-ops for the state machine: running on the
nonzero filtration gives the same final state. -/
lemma runSides_filter_zeros (dir : String) (s : CounterState) (xs : List Int) :
    runSides dir s (xs.filter (fun x => x ≠ 0)) = runSides dir s xs := by
  induction xs generalizing s with
  | nil => rfl
  | cons x rest ih =>
    by_cases hx : x = 0
    · subst hx
      rw [runSides_cons, stepSide_zero]
      simpa using ih s
    · rw [runSides_cons, ← ih (stepSide dir s x)]
      simp [List.filter_cons, hx, runSides_cons]

/-- Counter bookkeeping along a run started from an established side:
entered minus left changes exactly by the net signed transition count. -/
lemma runSides_net (dir : String) (ys : List Int) :
    ∀ p : Int, p = -1 ∨ p = 1 → (∀ x ∈ ys, x = -1 ∨ x = 1) → ∀ e l : Nat,
      ((runSides dir ⟨e, l, some p⟩ ys).entered : Int) -
        ((runSides dir ⟨e, l, some p⟩ ys).left : Int)
        = (e : Int) - (l : Int) + netFrom dir p ys := by
  induction ys with
  | nil => intro p _ _ e l; simp [runSides, netFrom]
  | cons c rest ih =>
    intro p hp hmem e l
    have hc : c = -1 ∨ c = 1 := hmem c (by simp)
    have hrest : ∀ x ∈ rest, x = -1 ∨ x = 1 :=
      fun x hx => hmem x (List.mem_cons_of_mem _ hx)
    rw [runSides_cons]
    rcases hp with rfl | rfl <;> rcases hc with rfl | rfl
    · have hstep : stepSide dir ⟨e, l, some (-1)⟩ (-1) = ⟨e, l, some (-1)⟩ := by
        simp [stepSide]
      rw [hstep, ih (-1) (Or.inl rfl) hrest e l]
      simp [netFrom, transitionDelta, crossing_direction]
    · by_cases hd : "down" = dir
      · have hstep : stepSide dir ⟨e, l, some (-1)⟩ 1 = ⟨e + 1, l, some 1⟩ := by
          simp [stepSide, crossing_direction, hd]
        rw [hstep, ih 1 (Or.inr rfl) hrest (e + 1) l]
        simp [netFrom, transitionDelta, crossing_direction, hd]
        ring
      · have hstep : stepSide dir ⟨e, l, some (-1)⟩ 1 = ⟨e, l + 1, some 1⟩ := by
          simp [stepSide, crossing_direction, hd]
        rw [hstep, ih 1 (Or.inr rfl) hrest e (l + 1)]
        simp [netFrom, transitionDelta, crossing_direction, hd]
        ring
    · by_cases hd : "up" = dir
      · have hstep : stepSide dir ⟨e, l, some 1⟩ (-1) = ⟨e + 1, l, some (-1)⟩ := by
          simp [stepSide, crossing_direction, hd]
        rw [hstep, ih (-1) (Or.inl rfl) hrest (e + 1) l]
        simp [netFrom, transitionDelta, crossing_direction, hd]
        ring
      · have hstep : stepSide dir ⟨e, l, some 1⟩ (-1) = ⟨e, l + 1, some (-1)⟩ := by
          simp [stepSide, crossing_direction, hd]
        rw [hstep, ih (-1) (Or.inl rfl) hrest e (l + 1)]
        simp [netFrom, transitionDelta, crossing_direction, hd]
        ring
    · have hstep : stepSide dir ⟨e, l, some 1⟩ 1 = ⟨e, l, some 1⟩ := by
        simp [stepSide]
      rw [hstep, ih 1 (Or.inr rfl) hrest e l]
      simp [netFrom, transitionDelta, crossing_direction]


/-- C1: for every finite sequence of classified side samples (-1, 0, +1) fed
to the crossing state machine for a single track identity against a single
boundary, emitted entries minus emitted exits equal the net number of
genuine alternating non-ambiguous side transitions, and the whole final
state is unchanged by inserting ambiguous (0) samples anywhere. -/
theorem C1_entry_exit_balance (dir : String) (xs : List Int)
    (hx : ∀ x ∈ xs, x = -1 ∨ x = 0 ∨ x = 1) :
    (((runSides dir ⟨0, 0, none⟩ xs).entered : Int) -
        ((runSides dir ⟨0, 0, none⟩ xs).left : Int) = netTransitions dir xs)
    ∧ ∀ ys : List Int, ys.filter (fun x => x ≠ 0) = xs.filter (fun x => x ≠ 0) →
        runSides dir ⟨0, 0, none⟩ ys = runSides dir ⟨0, 0, none⟩ xs := by
  constructor
  · rw [← runSides_filter_zeros]
    have hys : ∀ x ∈ xs.filter (fun x => x ≠ 0), x = -1 ∨ x = 1 := by
      intro x hxmem
      rcases List.mem_filter.mp hxmem with ⟨hmem, hne⟩
      have hx0 : x ≠ 0 := by simpa using hne
      rcases hx x hmem with h | h | h
      · exact Or.inl h
      · exact absurd h hx0
      · exact Or.inr h
    unfold netTransitions
    cases hcase : xs.filter (fun x => x ≠ 0) with
    | nil => simp [runSides]
    | cons p rest =>
      rw [hcase] at hys
      have hp : p = -1 ∨ p = 1 := hys p (by simp)
      have hrest : ∀ x ∈ rest, x = -1 ∨ x = 1 :=
        fun x hxr => hys x (List.mem_cons_of_mem _ hxr)
      have hp0 : p ≠ 0 := by rcases hp with rfl | rfl <;> decide
      have hstep : stepSide dir ⟨0, 0, none⟩ p = ⟨0, 0, some p⟩ := by
        simp [stepSide, hp0]
      rw [runSides_cons, hstep, runSides_net dir rest p hp hrest 0 0]
      simp
  · intro ys hys
    rw [← runSides_filter_zeros dir _ ys, hys, runSides_filter_zeros]

/-- Closed instance of C1 at a concrete sample sequence. -/
theorem C1_entry_exit_balance_witness :
    (((runSides "down" ⟨0, 0, none⟩ [-1, 0, 1, 0, 0, -1]).entered : Int) -
        ((runSides "down" ⟨0, 0, none⟩ [-1, 0, 1, 0, 0, -1]).left : Int)
      = netTransitions "down" [-1, 0, 1, 0, 0, -1])
    ∧ runSides "down" ⟨0, 0, none⟩ [0, -1, 1, -1, 0] =
        runSides "down" ⟨0, 0, none⟩ [-1, 0, 1, 0, 0, -1] :=
  ⟨(C1_entry_exit_balance "down" [-1, 0, 1, 0, 0, -1] (by decide)).1,
   (C1_entry_exit_balance "down" [-1, 0, 1, 0, 0, -1] (by decide)).2
      [0, -1, 1, -1, 0] (by decide)⟩

/-- C2: for the horizontal boundary y=300 spanning x in [0,640] with margin 6
and entry direction "down", a foot point at y=250 classifies as side -1 and
at y=350 as side +1; the sample order (-1 then +1) produces exactly one
entry (a "down" crossing), the reversed order exactly one exit (an "up"
crossing). -/
theorem C2_horizontal_line_scenario :
    side_of_gate 320 250 0 300 640 300 6 = -1
    ∧ side_of_gate 320 350 0 300 640 300 6 = 1
    ∧ crossing_direction (-1) 1 = some "down"
    ∧ crossing_direction 1 (-1) = some "up"
    ∧ runSides "down" ⟨0, 0, none⟩
        [side_of_gate 320 250 0 300 640 300 6,
         side_of_gate 320 350 0 300 640 300 6] = ⟨1, 0, some 1⟩
    ∧ runSides "down" ⟨0, 0, none⟩
        [side_of_gate 320 350 0 300 640 300 6,
         side_of_gate 320 250 0 300 640 300 6] = ⟨0, 1, some (-1)⟩ := by
  have h1 : side_of_gate 320 250 0 300 640 300 6 = -1 := by norm_num [side_of_gate]
  have h2 : side_of_gate 320 350 0 300 640 300 6 = 1 := by norm_num [side_of_gate]
  rw [h1, h2]
  refine ⟨rfl, rfl, ?_, ?_, ?_, ?_⟩ <;> decide

/-- C3: once a non-zero side is established for a track and boundary, any
sequence of samples classifying as 0 or as the stored side leaves the whole
state (counters and stored side) unchanged, so no entry or exit event is
emitted. -/
theorem C3_established_side_stable (dir : String) (s : Int) (e l : Nat)
    (xs : List Int) (hs : s ≠ 0) (hx : ∀ x ∈ xs, x = 0 ∨ x = s) :
    runSides dir ⟨e, l, some s⟩ xs = ⟨e, l, some s⟩ := by
  induction xs with
  | nil => rfl
  | cons c rest ih =>
    have hrest : ∀ x ∈ rest, x = 0 ∨ x = s :=
      fun x hxr => hx x (List.mem_cons_of_mem _ hxr)
    rcases hx c (by simp) with rfl | rfl
    · rw [runSides_cons, stepSide_zero]
      exact ih hrest
    · have hstep : stepSide dir ⟨e, l, some c⟩ c = ⟨e, l, some c⟩ := by
        simp [stepSide, hs]
      rw [runSides_cons, hstep]
      exact ih hrest

/-- Closed instance of C3: a track lingering in the margin band (side 0)
after establishing side -1 produces zero events. -/
theorem C3_established_side_stable_witness :
    runSides "down" ⟨2, 1, some (-1)⟩ [0, 0, -1, 0, -1, 0, 0] = ⟨2, 1, some (-1)⟩ :=
  C3_established_side_stable "down" (-1) 2 1 [0, 0, -1, 0, -1, 0, 0]
    (by decide) (by decide)

/-- C5: each machine step either emits no event or increments exactly one of
the entered/left counters by exactly 1; the counters are monotonically
non-decreasing along any run; and the reported occupancy is computed as
max(0, initial + entered - left), hence never negative. -/
theorem C5_counters_monotone_occupancy_nonneg :
    (∀ (dir : String) (s : CounterState) (x : Int),
        ((stepSide dir s x).entered = s.entered ∧ (stepSide dir s x).left = s.left)
        ∨ ((stepSide dir s x).entered = s.entered + 1 ∧ (stepSide dir s x).left = s.left)
        ∨ ((stepSide dir s x).entered = s.entered ∧ (stepSide dir s x).left = s.left + 1))
    ∧ (∀ (dir : String) (s : CounterState) (xs : List Int),
        s.entered ≤ (runSides dir s xs).entered ∧ s.left ≤ (runSides dir s xs).left)
    ∧ (∀ (initial : Int) (e l : Nat),
        occupancy initial e l = max 0 (initial + (e : Int) - (l : Int))
        ∧ 0 ≤ occupancy initial e l) := by
  have hstep : ∀ (dir : String) (s : CounterState) (x : Int),
      ((stepSide dir s x).entered = s.entered ∧ (stepSide dir s x).left = s.left)
      ∨ ((stepSide dir s x).entered = s.entered + 1 ∧ (stepSide dir s x).left = s.left)
      ∨ ((stepSide dir s x).entered = s.entered ∧ (stepSide dir s x).left = s.left + 1) := by
    intro dir s x
    rcases s with ⟨e, l, side⟩
    cases side with
    | none =>
      by_cases hx : x = 0 <;> simp [stepSide, hx]
    | some prev =>
      show _ ∨ _ ∨ _
      simp only [stepSide]
      split
      · split
        · split <;> simp
        · simp
      · split <;> simp
  refine ⟨hstep, ?_, ?_⟩
  · intro dir s xs
    induction xs generalizing s with
    | nil => exact ⟨le_refl _, le_refl _⟩
    | cons x rest ih =>
      rw [runSides_cons]
      rcases ih (stepSide dir s x) with ⟨he, hl⟩
      rcases hstep dir s x with ⟨h1, h2⟩ | ⟨h1, h2⟩ | ⟨h1, h2⟩ <;>
        exact ⟨le_trans (by omega) he, le_trans (by omega) hl⟩
  · intro initial e l
    exact ⟨rfl, le_max_left 0 _⟩

/- ---------------------------------------------------------------
   Session state: boundary refresh, per-identity memory and per-room
   statistics (src/cv/video_processing/pipeline.py and models.py).
   Python dicts are modelled as insertion-ordered association lists.
   --------------------------------------------------------------- -/

/-- Transcription of the `RoomConfig` dataclass (models.py lines 13-23). -/
structure RoomConfig where
  room_id : String
  gate_x1 : Int
  gate_y1 : Int
  gate_x2 : Int
  gate_y2 : Int
  direction : String
  line_margin : Int
  initial_occupancy : Int
  line_thickness : Int
deriving DecidableEq

/-- Transcription of the `RoomStats` dataclass (models.py lines 26-29). -/
structure RoomStats where
  entered : Nat
  left : Nat
deriving DecidableEq

/-- One signature tuple `(room_id, gate_x1, gate_y1, gate_x2, gate_y2,
direction, line_margin)` of `_room_signature` (pipeline.py lines 14-26),
modelled as a record. -/
structure RoomSig where
  room_id : String
  gate_x1 : Int
  gate_y1 : Int
  gate_x2 : Int
  gate_y2 : Int
  direction : String
  line_margin : Int
deriving DecidableEq

/-- Transcription of `_room_signature` (pipeline.py lines 14-26). -/
def room_signature (rooms : List RoomConfig) : List RoomSig :=
  rooms.map fun r =>
    ⟨r.room_id, r.gate_x1, r.gate_y1, r.gate_x2, r.gate_y2, r.direction, r.line_margin⟩

/-- Ordered-association-list lookup, modelling Python dict lookup. -/
def alookup {α β : Type} [DecidableEq α] : List (α × β) → α → Option β
  | [], _ => none
  | (k, v) :: rest, key => if key = k then some v else alookup rest key

/-- Ordered-association-list assignment, modelling Python dict assignment:
replace in place when the key exists, append otherwise. -/
def aset {α β : Type} [DecidableEq α] : List (α × β) → α → β → List (α × β)
  | [], key, val => [(key, val)]
  | (k, v) :: rest, key, val =>
    if k = key then (k, val) :: rest else (k, v) :: aset rest key val

abbrev StatsMap := List (String × RoomStats)

abbrev SideMap := List (String × Int)

abbrev TrackMap := List (Int × SideMap)

/-- `room_stats.setdefault(room_id, RoomStats())` (pipeline.py line 100). -/
def setdefaultStats (m : StatsMap) (k : String) : StatsMap :=
  match alookup m k with
  | some _ => m
  | none => m ++ [(k, ⟨0, 0⟩)]

/-- The mutable session variables of `run_people_counter` that the
door-detection refresh block touches (pipeline.py lines 63-66). -/
structure RefreshState where
  rooms : List RoomConfig
  stats : StatsMap
  trackStates : TrackMap
  prevSignature : List RoomSig
deriving DecidableEq

/-- Transcription of the door-detection refresh block of
`run_people_counter` (pipeline.py lines 97-105): `new_rooms` is the output
of one `detect_doors_from_frame` pass.  An empty pass keeps everything; a
non-empty pass is adopted only when it has at least as many rooms as the
current set; every chosen room gets a zero-initialised stats entry if
missing; a changed signature clears all per-identity memory.  (The
`lock_doors_on_detect` flag, lines 106-110, has no effect on these
variables.) -/
def refresh_rooms (st : RefreshState) (new_rooms : List RoomConfig) : RefreshState :=
  if new_rooms = [] then st
  else
    let chosen := if st.rooms.length ≤ new_rooms.length then new_rooms else st.rooms
    let stats2 := chosen.foldl (fun m r => setdefaultStats m r.room_id) st.stats
    let sig := room_signature chosen
    if sig ≠ st.prevSignature then
      { rooms := chosen, stats := stats2, trackStates := [], prevSignature := sig }
    else
      { rooms := chosen, stats := stats2, trackStates := st.trackStates,
        prevSignature := st.prevSignature }

/-- `room_stats[room_id].entered += 1` (pipeline.py line 152); the pipeline
guarantees the key is present for every active room. -/
def bumpEntered (m : StatsMap) (k : String) : StatsMap :=
  match alookup m k with
  | some st => aset m k ⟨st.entered + 1, st.left⟩
  | none => m

/-- `room_stats[room_id].left += 1` (pipeline.py line 154). -/
def bumpLeft (m : StatsMap) (k : String) : StatsMap :=
  match alookup m k with
  | some st => aset m k ⟨st.entered, st.left + 1⟩
  | none => m

/-- Body of the `for room in rooms` loop of `run_people_counter`
(pipeline.py lines 133-157) for one observed track: classify the foot
point against the room's gate and update stats and the track's stored
side. -/
def processRoom (fx fy : ℚ) (stats : StatsMap) (sides : SideMap)
    (room : RoomConfig) : StatsMap × SideMap :=
  let curr := side_of_gate fx fy room.gate_x1 room.gate_y1 room.gate_x2
    room.gate_y2 room.line_margin
  match alookup sides room.room_id with
  | none =>
    if curr ≠ 0 then (stats, aset sides room.room_id curr) else (stats, sides)
  | some prev =>
    if curr ≠ 0 ∧ curr ≠ prev then
      let stats2 :=
        match crossing_direction prev curr with
        | some d =>
          if d = room.direction then bumpEntered stats room.room_id
          else bumpLeft stats room.room_id
        | none => stats
      (stats2, aset sides room.room_id curr)
    else if curr ≠ 0 then (stats, aset sides room.room_id curr)
    else (stats, sides)

/-- Processing of one (track id, foot point) sample against all rooms
(pipeline.py lines 128-157): `track_states.setdefault(tid, TrackState())`
followed by the per-room loop. -/
def processSample (rooms : List RoomConfig) (stats : StatsMap) (ts : TrackMap)
    (tid : Int) (fx fy : ℚ) : StatsMap × TrackMap :=
  let sides := (alookup ts tid).getD []
  let res := rooms.foldl (fun acc room => processRoom fx fy acc.1 acc.2 room) (stats, sides)
  (res.1, aset ts tid res.2)

/- Association-list lemmas. -/

lemma alookup_aset {α β : Type} [DecidableEq α] (m : List (α × β)) (key k : α) (v : β) :
    alookup (aset m key v) k = if k = key then some v else alookup m k := by
  induction m with
  | nil => by_cases h : k = key <;> simp [aset, alookup, h]
  | cons p rest ih =>
    rcases p with ⟨a, b⟩
    by_cases ha : a = key
    · subst ha
      by_cases hk : k = a <;> simp [aset, alookup, hk]
    · by_cases hk : k = a
      · subst hk
        simp [aset, alookup, ha, Ne.symm ha]
      · simp [aset, alookup, ha, hk, ih]

lemma alookup_append_left {α β : Type} [DecidableEq α] (m l : List (α × β)) (k : α) (v : β)
    (h : alookup m k = some v) : alookup (m ++ l) k = some v := by
  induction m with
  | nil => simp [alookup] at h
  | cons p rest ih =>
    rcases p with ⟨a, b⟩
    by_cases hk : k = a
    · simpa [alookup, hk] using h
    · simp only [alookup, if_neg hk] at h
      simpa [alookup, hk] using ih h

lemma alookup_append_right {α β : Type} [DecidableEq α] (m l : List (α × β)) (k : α)
    (h : alookup m k = none) : alookup (m ++ l) k = alookup l k := by
  induction m with
  | nil => rfl
  | cons p rest ih =>
    rcases p with ⟨a, b⟩
    by_cases hk : k = a
    · simp [alookup, hk] at h
    · simp only [alookup, if_neg hk] at h
      simpa [alookup, hk] using ih h

/- Refresh lemmas for the stats map. -/

lemma setdefaultStats_preserves (m : StatsMap) (k2 k : String) (v : RoomStats)
    (h : alookup m k = some v) : alookup (setdefaultStats m k2) k = some v := by
  unfold setdefaultStats
  cases hm : alookup m k2 with
  | some w => exact h
  | none => exact alookup_append_left m _ k v h

lemma foldl_setdefault_preserves (l : List RoomConfig) :
    ∀ (m : StatsMap) (k : String) (v : RoomStats), alookup m k = some v →
      alookup (l.foldl (fun m r => setdefaultStats m r.room_id) m) k = some v := by
  induction l with
  | nil => intro m k v h; exact h
  | cons r rest ih =>
    intro m k v h
    exact ih _ k v (setdefaultStats_preserves m r.room_id k v h)

lemma foldl_setdefault_new (l : List RoomConfig) :
    ∀ (m : StatsMap) (k : String), alookup m k = none →
      alookup (l.foldl (fun m r => setdefaultStats m r.room_id) m) k = none ∨
      alookup (l.foldl (fun m r => setdefaultStats m r.room_id) m) k = some ⟨0, 0⟩ := by
  induction l with
  | nil => intro m k h; exact Or.inl h
  | cons r rest ih =>
    intro m k h
    rw [List.foldl_cons]
    by_cases hmem : alookup m r.room_id = none
    · by_cases hk : k = r.room_id
      · refine Or.inr (foldl_setdefault_preserves rest _ k ⟨0, 0⟩ ?_)
        rw [show setdefaultStats m r.room_id = m ++ [(r.room_id, ⟨0, 0⟩)] by
          simp [setdefaultStats, hmem]]
        rw [alookup_append_right m _ k h]
        simp [alookup, hk]
      · refine ih _ k ?_
        rw [show setdefaultStats m r.room_id = m ++ [(r.room_id, ⟨0, 0⟩)] by
          simp [setdefaultStats, hmem]]
        rw [alookup_append_right m _ k h]
        simp [alookup, hk]
    · have hid : setdefaultStats m r.room_id = m := by
        rcases hx : alookup m r.room_id with _ | w
        · exact absurd hx hmem
        · simp [setdefaultStats, hx]
      rw [hid]
      exact ih m k h

/- Lemmas for the per-room processing loop when no side memory exists. -/

lemma processRoom_fresh (fx fy : ℚ) (stats : StatsMap) (sides : SideMap)
    (room : RoomConfig) (h : alookup sides room.room_id = none) :
    (processRoom fx fy stats sides room).1 = stats ∧
    ∀ k, k ≠ room.room_id →
      alookup (processRoom fx fy stats sides room).2 k = alookup sides k := by
  refine ⟨?_, ?_⟩
  · unfold processRoom
    rw [h]
    dsimp only
    split <;> rfl
  · intro k hk
    unfold processRoom
    rw [h]
    dsimp only
    split
    · dsimp only
      rw [alookup_aset, if_neg hk]
    · rfl

lemma processFold_no_events (fx fy : ℚ) (rooms : List RoomConfig) :
    ∀ (stats : StatsMap) (sides : SideMap),
      (∀ r ∈ rooms, alookup sides r.room_id = none) →
      (rooms.map RoomConfig.room_id).Nodup →
      (rooms.foldl (fun acc room => processRoom fx fy acc.1 acc.2 room) (stats, sides)).1
        = stats := by
  induction rooms with
  | nil => intro stats sides _ _; rfl
  | cons r rest ih =>
    intro stats sides hnone hnd
    have h0 : alookup sides r.room_id = none := hnone r (by simp)
    obtain ⟨h1, h2⟩ := processRoom_fresh fx fy stats sides r h0
    have hpair : processRoom fx fy stats sides r
        = (stats, (processRoom fx fy stats sides r).2) := Prod.ext h1 rfl
    rw [List.foldl_cons]
    rw [List.map_cons] at hnd
    have hnd2 := List.nodup_cons.mp hnd
    rw [show processRoom fx fy (stats, sides).1 (stats, sides).2 r
        = (stats, (processRoom fx fy stats sides r).2) from hpair]
    refine ih stats _ ?_ hnd2.2
    intro r2 hr2
    have hne : r2.room_id ≠ r.room_id := by
      intro hcontra
      exact hnd2.1 (hcontra ▸ List.mem_map_of_mem RoomConfig.room_id hr2)
    rw [h2 r2.room_id hne]
    exact hnone r2 (List.mem_cons_of_mem _ hr2)

lemma processSample_empty_ts (rooms : List RoomConfig) (stats : StatsMap)
    (tid : Int) (fx fy : ℚ) (hnd : (rooms.map RoomConfig.room_id).Nodup) :
    (processSample rooms stats [] tid fx fy).1 = stats := by
  show (rooms.foldl (fun acc room => processRoom fx fy acc.1 acc.2 room)
    (stats, (alookup ([] : TrackMap) tid).getD [])).1 = stats
  exact processFold_no_events fx fy rooms stats _ (fun r _ => rfl) hnd

/-- C4: whenever a refresh adopts a boundary set whose geometric signature
differs from the previous frame's signature, all per-identity side memory
is cleared, and the first sample processed afterwards (for any track, any
foot point) leaves every room's entered/left counters unchanged — it can
only establish new baselines.  Room identifiers are pairwise distinct for
any detection output. -/
theorem C4_geometry_invalidation (st : RefreshState) (new_rooms : List RoomConfig)
    (tid : Int) (fx fy : ℚ)
    (hne : new_rooms ≠ [])
    (hsig : room_signature
        (if st.rooms.length ≤ new_rooms.length then new_rooms else st.rooms)
      ≠ st.prevSignature)
    (hids : ((refresh_rooms st new_rooms).rooms.map RoomConfig.room_id).Nodup) :
    (refresh_rooms st new_rooms).trackStates = [] ∧
    (processSample (refresh_rooms st new_rooms).rooms (refresh_rooms st new_rooms).stats
        (refresh_rooms st new_rooms).trackStates tid fx fy).1
      = (refresh_rooms st new_rooms).stats := by
  have hclear : (refresh_rooms st new_rooms).trackStates = [] := by
    simp [refresh_rooms, hne, hsig]
  refine ⟨hclear, ?_⟩
  rw [hclear]
  exact processSample_empty_ts _ _ tid fx fy hids

/-- Closed instance of C4: a refresh that replaces the single door
"room_1" by one with different geometry clears track memory, and the next
sample emits no event. -/
theorem C4_geometry_invalidation_witness :
    (refresh_rooms
        ⟨[⟨"room_1", 0, 300, 640, 300, "down", 6, 0, 2⟩],
         [("room_1", ⟨3, 1⟩)], [(7, [("room_1", -1)])],
         room_signature [⟨"room_1", 0, 300, 640, 300, "down", 6, 0, 2⟩]⟩
        [⟨"room_1", 0, 320, 640, 320, "down", 6, 0, 2⟩]).trackStates = [] ∧
    (processSample
        (refresh_rooms
          ⟨[⟨"room_1", 0, 300, 640, 300, "down", 6, 0, 2⟩],
           [("room_1", ⟨3, 1⟩)], [(7, [("room_1", -1)])],
           room_signature [⟨"room_1", 0, 300, 640, 300, "down", 6, 0, 2⟩]⟩
          [⟨"room_1", 0, 320, 640, 320, "down", 6, 0, 2⟩]).rooms
        (refresh_rooms
          ⟨[⟨"room_1", 0, 300, 640, 300, "down", 6, 0, 2⟩],
           [("room_1", ⟨3, 1⟩)], [(7, [("room_1", -1)])],
           room_signature [⟨"room_1", 0, 300, 640, 300, "down", 6, 0, 2⟩]⟩
          [⟨"room_1", 0, 320, 640, 320, "down", 6, 0, 2⟩]).stats
        (refresh_rooms
          ⟨[⟨"room_1", 0, 300, 640, 300, "down", 6, 0, 2⟩],
           [("room_1", ⟨3, 1⟩)], [(7, [("room_1", -1)])],
           room_signature [⟨"room_1", 0, 300, 640, 300, "down", 6, 0, 2⟩]⟩
          [⟨"room_1", 0, 320, 640, 320, "down", 6, 0, 2⟩]).trackStates
        7 320 350).1
      = (refresh_rooms
          ⟨[⟨"room_1", 0, 300, 640, 300, "down", 6, 0, 2⟩],
           [("room_1", ⟨3, 1⟩)], [(7, [("room_1", -1)])],
           room_signature [⟨"room_1", 0, 300, 640, 300, "down", 6, 0, 2⟩]⟩
          [⟨"room_1", 0, 320, 640, 320, "down", 6, 0, 2⟩]).stats :=
  C4_geometry_invalidation _ _ 7 320 350 (by decide) (by decide) (by decide)

/-- C6 counterexample: a refresh whose detection pass returns fewer
boundaries than the active set does NOT replace the active set — the old
boundaries are retained instead of the new pass's output
(pipeline.py line 98). -/
theorem C6_wholesale_replacement_counterexample :
    (refresh_rooms
        ⟨[⟨"room_1", 0, 100, 320, 100, "down", 6, 0, 2⟩,
          ⟨"room_2", 320, 100, 640, 100, "down", 6, 0, 2⟩],
         [("room_1", ⟨0, 0⟩), ("room_2", ⟨0, 0⟩)], [],
         room_signature [⟨"room_1", 0, 100, 320, 100, "down", 6, 0, 2⟩,
           ⟨"room_2", 320, 100, 640, 100, "down", 6, 0, 2⟩]⟩
        [⟨"room_1", 0, 200, 640, 200, "down", 6, 0, 2⟩]).rooms
      = [⟨"room_1", 0, 100, 320, 100, "down", 6, 0, 2⟩,
         ⟨"room_2", 320, 100, 640, 100, "down", 6, 0, 2⟩] ∧
    (refresh_rooms
        ⟨[⟨"room_1", 0, 100, 320, 100, "down", 6, 0, 2⟩,
          ⟨"room_2", 320, 100, 640, 100, "down", 6, 0, 2⟩],
         [("room_1", ⟨0, 0⟩), ("room_2", ⟨0, 0⟩)], [],
         room_signature [⟨"room_1", 0, 100, 320, 100, "down", 6, 0, 2⟩,
           ⟨"room_2", 320, 100, 640, 100, "down", 6, 0, 2⟩]⟩
        [⟨"room_1", 0, 200, 640, 200, "down", 6, 0, 2⟩]).rooms
      ≠ [⟨"room_1", 0, 200, 640, 200, "down", 6, 0, 2⟩] := by
  decide

/-- C6 (amended): on a door-detection refresh the active boundary set is
either replaced wholesale by the new pass's output (when that pass is
non-empty and produced at least as many boundaries as the current set) or
kept wholesale as the previous set; it is never a mixture and is never
mutated in place. -/
theorem C6_wholesale_replacement_amended (st : RefreshState) (new_rooms : List RoomConfig) :
    (refresh_rooms st new_rooms).rooms =
      if new_rooms ≠ [] ∧ st.rooms.length ≤ new_rooms.length then new_rooms
      else st.rooms := by
  unfold refresh_rooms
  by_cases hne : new_rooms = []
  · simp [hne]
  · by_cases hlen : st.rooms.length ≤ new_rooms.length
    · simp [hne, hlen, apply_ite RefreshState.rooms]
    · simp [hne, hlen, apply_ite RefreshState.rooms]

/-- C10: a door-detection refresh never resets or removes existing
per-room statistics: every identifier already present keeps its exact
stats entry, and identifiers not present before are either still absent or
were added zero-initialised. -/
theorem C10_refresh_preserves_stats (st : RefreshState) (new_rooms : List RoomConfig) :
    (∀ k v, alookup st.stats k = some v →
        alookup (refresh_rooms st new_rooms).stats k = some v) ∧
    (∀ k, alookup st.stats k = none →
        alookup (refresh_rooms st new_rooms).stats k = none ∨
        alookup (refresh_rooms st new_rooms).stats k = some ⟨0, 0⟩) := by
  by_cases hne : new_rooms = []
  · constructor
    · intro k v h
      simpa [refresh_rooms, hne] using h
    · intro k h
      left
      simpa [refresh_rooms, hne] using h
  · have hstats : (refresh_rooms st new_rooms).stats =
        (if st.rooms.length ≤ new_rooms.length then new_rooms else st.rooms).foldl
          (fun m r => setdefaultStats m r.room_id) st.stats := by
      simp [refresh_rooms, hne, apply_ite RefreshState.stats]
    rw [hstats]
    constructor
    · intro k v h
      exact foldl_setdefault_preserves _ _ k v h
    · intro k h
      exact foldl_setdefault_new _ _ k h

/-- Closed instance of C10: a refresh that reuses identifier "room_1" with
new geometry inherits the accumulated (entered, left) = (3, 1), and the
fresh identifier "room_2" is added zero-initialised or absent. -/
theorem C10_refresh_preserves_stats_witness :
    alookup (refresh_rooms
        ⟨[⟨"room_1", 0, 300, 640, 300, "down", 6, 0, 2⟩],
         [("room_1", ⟨3, 1⟩)], [],
         room_signature [⟨"room_1", 0, 300, 640, 300, "down", 6, 0, 2⟩]⟩
        [⟨"room_1", 0, 320, 320, 320, "down", 6, 0, 2⟩,
         ⟨"room_2", 320, 320, 640, 320, "down", 6, 0, 2⟩]).stats "room_1"
      = some ⟨3, 1⟩ ∧
    (alookup (refresh_rooms
        ⟨[⟨"room_1", 0, 300, 640, 300, "down", 6, 0, 2⟩],
         [("room_1", ⟨3, 1⟩)], [],
         room_signature [⟨"room_1", 0, 300, 640, 300, "down", 6, 0, 2⟩]⟩
        [⟨"room_1", 0, 320, 320, 320, "down", 6, 0, 2⟩,
         ⟨"room_2", 320, 320, 640, 320, "down", 6, 0, 2⟩]).stats "room_2"
      = none ∨
     alookup (refresh_rooms
        ⟨[⟨"room_1", 0, 300, 640, 300, "down", 6, 0, 2⟩],
         [("room_1", ⟨3, 1⟩)], [],
         room_signature [⟨"room_1", 0, 300, 640, 300, "down", 6, 0, 2⟩]⟩
        [⟨"room_1", 0, 320, 320, 320, "down", 6, 0, 2⟩,
         ⟨"room_2", 320, 320, 640, 320, "down", 6, 0, 2⟩]).stats "room_2"
      = some ⟨0, 0⟩) :=
  ⟨(C10_refresh_preserves_stats _ _).1 "room_1" ⟨3, 1⟩ (by decide),
   (C10_refresh_preserves_stats _ _).2 "room_2" (by decide)⟩

/- ---------------------------------------------------------------
   Door candidate detection: IoU and non-max suppression
   (src/cv/video_processing/door_detection.py).
   --------------------------------------------------------------- -/

/-- A detection box `[x1, y1, x2, y2]`. -/
abbrev Box := ℚ × ℚ × ℚ × ℚ

/-- A pooled detection `(confidence, box, prompt)` as produced by
`collect_prompt_detections` (door_detection.py lines 141-164). -/
abbrev Det := ℚ × Box × String

/-- Transcription of `box_iou_xyxy` (door_detection.py lines 167-185). -/
def box_iou_xyxy (a b : Box) : ℚ :=
  let inter_x1 := max a.1 b.1
  let inter_y1 := max a.2.1 b.2.1
  let inter_x2 := min a.2.2.1 b.2.2.1
  let inter_y2 := min a.2.2.2 b.2.2.2
  let iw := max 0 (inter_x2 - inter_x1)
  let ih := max 0 (inter_y2 - inter_y1)
  let inter := iw * ih
  if inter ≤ 0 then 0
  else
    let a_area := max 0 (a.2.2.1 - a.1) * max 0 (a.2.2.2 - a.2.1)
    let b_area := max 0 (b.2.2.1 - b.1) * max 0 (b.2.2.2 - b.2.1)
    let denom := a_area + b_area - inter
    if denom ≤ 0 then 0 else inter / denom

/-- Body of the keep-loop of `nms_detections` (door_detection.py lines
197-201): a candidate is dropped when its IoU with any already-kept box
reaches the threshold, otherwise appended. -/
def nms_keep_step (iou_threshold : ℚ) (kept : List Det) (cand : Det) : List Det :=
  if kept.any fun k => decide (iou_threshold ≤ box_iou_xyxy cand.2.1 k.2.1) then kept
  else kept ++ [cand]

/-- Confidence ordering used by `sorted(detections, key=conf, reverse=True)`
(door_detection.py line 195). -/
def conf_ge (a b : Det) : Prop := b.1 ≤ a.1

instance : DecidableRel conf_ge := fun a b => inferInstanceAs (Decidable (b.1 ≤ a.1))

instance : IsTotal Det conf_ge := ⟨fun a b => le_total b.1 a.1⟩

instance : IsTrans Det conf_ge := ⟨fun _ _ _ hab hbc => le_trans hbc hab⟩

/-- Transcription of `nms_detections` (door_detection.py lines 188-202).
Python's stable descending sort is modelled by insertion sort along
`conf_ge`. -/
def nms_detections (detections : List Det) (iou_threshold : ℚ) : List Det :=
  if detections = [] then []
  else (List.insertionSort conf_ge detections).foldl (nms_keep_step iou_threshold) []

/-- Separation invariant of an NMS output: every element's box has IoU
below the threshold with every earlier kept element's box. -/
def nms_ok (thr : ℚ) (a b : Det) : Prop := box_iou_xyxy b.2.1 a.2.1 < thr

lemma nms_fold_sublist (thr : ℚ) (l : List Det) :
    ∀ kept : List Det, List.Sublist (l.foldl (nms_keep_step thr) kept) (kept ++ l) := by
  induction l with
  | nil => intro kept; simp
  | cons c rest ih =>
    intro kept
    rw [List.foldl_cons]
    unfold nms_keep_step
    split
    · exact (ih kept).trans
        (List.Sublist.append_left (List.sublist_cons_self c rest) kept)
    · simpa [List.append_assoc] using ih (kept ++ [c])

lemma nms_fold_pairwise (thr : ℚ) (l : List Det) :
    ∀ kept : List Det, kept.Pairwise (nms_ok thr) →
      (l.foldl (nms_keep_step thr) kept).Pairwise (nms_ok thr) := by
  induction l with
  | nil => intro kept h; exact h
  | cons c rest ih =>
    intro kept h
    rw [List.foldl_cons]
    unfold nms_keep_step
    split
    · exact ih kept h
    · rename_i hany
      refine ih _ ?_
      rw [List.pairwise_append]
      refine ⟨h, List.pairwise_singleton _ _, ?_⟩
      intro a ha b hb
      rw [List.mem_singleton] at hb
      rw [hb]
      have hfalse : ∀ k ∈ kept, ¬ thr ≤ box_iou_xyxy c.2.1 k.2.1 := by
        intro k hk hle
        exact hany (List.any_eq_true.mpr ⟨k, hk, decide_eq_true hle⟩)
      exact lt_of_not_le (hfalse a ha)

lemma nms_fold_all_pass (thr : ℚ) (l : List Det) :
    ∀ kept : List Det, l.Pairwise (nms_ok thr) →
      (∀ c ∈ l, ∀ a ∈ kept, ¬ thr ≤ box_iou_xyxy c.2.1 a.2.1) →
      l.foldl (nms_keep_step thr) kept = kept ++ l := by
  induction l with
  | nil => intro kept _ _; simp
  | cons c rest ih =>
    intro kept hpw hcl
    rw [List.foldl_cons]
    have hany : (kept.any fun k => decide (thr ≤ box_iou_xyxy c.2.1 k.2.1)) = false := by
      rw [List.any_eq_false]
      intro k hk
      simpa using hcl c (by simp) k hk
    have hstep : nms_keep_step thr kept c = kept ++ [c] := by
      unfold nms_keep_step
      rw [hany]
      rfl
    rw [hstep]
    obtain ⟨hhead, hrest⟩ := List.pairwise_cons.mp hpw
    rw [ih (kept ++ [c]) hrest ?_]
    · simp
    · intro c2 hc2 a ha
      rcases List.mem_append.mp ha with hak | hac
      · exact hcl c2 (List.mem_cons_of_mem _ hc2) a hak
      · rw [List.mem_singleton] at hac
        subst hac
        exact not_le.mpr (hhead c2 hc2)

lemma nms_detections_sorted_pairwise (dets : List Det) (thr : ℚ) :
    (nms_detections dets thr).Sorted conf_ge ∧
    (nms_detections dets thr).Pairwise (nms_ok thr) := by
  unfold nms_detections
  split
  · exact ⟨List.Pairwise.nil, List.Pairwise.nil⟩
  · constructor
    · have hsub := nms_fold_sublist thr (List.insertionSort conf_ge dets) []
      rw [List.nil_append] at hsub
      exact List.Pairwise.sublist hsub (List.sorted_insertionSort conf_ge dets)
    · exact nms_fold_pairwise thr _ [] List.Pairwise.nil

lemma nms_detections_idem (dets : List Det) (thr : ℚ) :
    nms_detections (nms_detections dets thr) thr = nms_detections dets thr := by
  by_cases h : nms_detections dets thr = []
  · rw [h]
    unfold nms_detections
    simp
  · obtain ⟨hsorted, hpw⟩ := nms_detections_sorted_pairwise dets thr
    rw [show nms_detections (nms_detections dets thr) thr
        = (if nms_detections dets thr = [] then []
           else (List.insertionSort conf_ge (nms_detections dets thr)).foldl
             (nms_keep_step thr) []) from rfl]
    rw [if_neg h, List.Sorted.insertionSort_eq hsorted]
    rw [nms_fold_all_pass thr _ [] hpw
      (fun c _ a ha => absurd ha (List.not_mem_nil a))]
    rw [List.nil_append]

/-- C7: NMS keeps its output sorted by confidence descending, every kept
box has IoU below the threshold with every earlier kept box, re-running
NMS on its own output with the same threshold returns the same list, and
for two candidate boxes with IoU 1/2 under threshold 45/100 only the
higher-confidence box survives. -/
theorem C7_nms_sorted_separated_idempotent :
    (∀ (dets : List Det) (thr : ℚ),
        (nms_detections dets thr).Sorted conf_ge
        ∧ (nms_detections dets thr).Pairwise (nms_ok thr)
        ∧ nms_detections (nms_detections dets thr) thr = nms_detections dets thr)
    ∧ box_iou_xyxy ((0 : ℚ), (0 : ℚ), (2 : ℚ), (2 : ℚ))
        ((0 : ℚ), (0 : ℚ), (2 : ℚ), (1 : ℚ)) = 1 / 2
    ∧ nms_detections
        [(9 / 10, ((0 : ℚ), (0 : ℚ), (2 : ℚ), (2 : ℚ)), "door"),
         (8 / 10, ((0 : ℚ), (0 : ℚ), (2 : ℚ), (1 : ℚ)), "door")] (45 / 100)
      = [(9 / 10, ((0 : ℚ), (0 : ℚ), (2 : ℚ), (2 : ℚ)), "door")] := by
  refine ⟨?_, ?_, ?_⟩
  · intro dets thr
    obtain ⟨h1, h2⟩ := nms_detections_sorted_pairwise dets thr
    exact ⟨h1, h2, nms_detections_idem dets thr⟩
  · norm_num [box_iou_xyxy]
  · norm_num [nms_detections, List.insertionSort, List.orderedInsert, conf_ge,
      nms_keep_step, box_iou_xyxy]
    simp

/- ---------------------------------------------------------------
   Segment clamping bounds (geometry.py clamp_segment).
   --------------------------------------------------------------- -/

/-- C8 counterexample: `clamp_segment` does not keep endpoints within
`[0, width - 1]` — at input (700, 800) with width 640 it returns
(640, 640), and 640 exceeds width - 1 = 639.  (It also never touches the
y-coordinates at all.) -/
theorem C8_clamp_bounds_counterexample :
    clamp_segment 700 800 640 = (640, 640)
    ∧ ¬ (clamp_segment 700 800 640).2 ≤ 640 - 1 := by
  constructor
  · rfl
  · decide

/-- C8 (amended): for every input segment and every non-negative width,
`clamp_segment` returns x-endpoints that are sorted and lie within
`[0, width]` (not `[0, width - 1]`); it receives and constrains no
y-coordinates. -/
theorem C8_clamp_bounds_amended (x1 x2 width : Int) (hw : 0 ≤ width) :
    0 ≤ (clamp_segment x1 x2 width).1
    ∧ (clamp_segment x1 x2 width).1 ≤ (clamp_segment x1 x2 width).2
    ∧ (clamp_segment x1 x2 width).2 ≤ width := by
  unfold clamp_segment
  split
  · rename_i h
    exact ⟨le_max_left 0 _, le_of_lt h, max_le hw (min_le_left _ _)⟩
  · rename_i h
    exact ⟨le_max_left 0 _, le_of_not_lt h, max_le hw (min_le_left _ _)⟩

/-- Closed instance of the amended C8 at the counterexample input. -/
theorem C8_clamp_bounds_amended_witness :
    0 ≤ (clamp_segment 700 800 640).1
    ∧ (clamp_segment 700 800 640).1 ≤ (clamp_segment 700 800 640).2
    ∧ (clamp_segment 700 800 640).2 ≤ 640 :=
  C8_clamp_bounds_amended 700 800 640 (by decide)

/- ---------------------------------------------------------------
   Gate-line fitting and candidate acceptance
   (src/cv/video_processing/door_detection.py).
   --------------------------------------------------------------- -/

/-- `max(lo, min(hi, v))`, the clamp idiom used throughout
door_detection.py. -/
def clampI (lo hi v : Int) : Int := max lo (min hi v)

/-- Python `int()` truncation toward zero, on an exact rational. -/
def truncInt (q : ℚ) : Int := if q < 0 then -⌊-q⌋ else ⌊q⌋

/-- Python `round()` — nearest integer, ties to even — on an exact
rational. -/
def roundHalfEven (q : ℚ) : Int :=
  if q - ⌊q⌋ < 1 / 2 then ⌊q⌋
  else if 1 / 2 < q - ⌊q⌋ then ⌊q⌋ + 1
  else if ⌊q⌋ % 2 = 0 then ⌊q⌋ else ⌊q⌋ + 1

/-- y-value of the chosen Hough segment's line extended to roi column `c`
(door_detection.py lines 90-92): `ly1 + (c - lx1) * m` with slope
`m = (ly2 - ly1) / (lx2 - lx1)`. -/
def extended_line_y (lx1 ly1 lx2 ly2 : Int) (c : ℚ) : ℚ :=
  (ly1 : ℚ) + (c - (lx1 : ℚ)) * (((ly2 - ly1 : Int) : ℚ) / ((lx2 - lx1 : Int) : ℚ))

/-- `min_bottom_ratio` clamped into [0.2, 0.95]
(door_detection.py line 58). -/
def clamped_bottom_frac (q : ℚ) : ℚ := max (1 / 5) (min (19 / 20) q)

/-- Transcription of `fit_gate_line_from_box` (door_detection.py lines
13-103).  The Canny/Hough stage operates on pixel data, so the scored
segment it selects inside the box (source lines 43-77) enters as the
parameter `best`: `none` models "no qualifying near-horizontal segment
found" (including `HoughLinesP` returning no lines at all); everything
else — the box clamping, the degenerate-box fallback, the vertical-segment
fallback, the slope extension across the box width, the lower-fraction
requirement on the extended endpoints, and the offset/clamp of the final
line — is transcribed exactly.  (The `roi.size == 0` check of source line
39 is subsumed by the `x2 <= x1 or y2 <= y1` check of line 34.) -/
def fit_gate_line_from_box (h w x1 y1 x2 y2 : Int)
    (best : Option (Int × Int × Int × Int))
    (line_offset : Int) (min_bottom_frac : ℚ) : Int × Int × Int × Int × String :=
  if clampI 0 (w - 1) x2 ≤ clampI 0 (w - 1) x1
      ∨ clampI 0 (h - 1) y2 ≤ clampI 0 (h - 1) y1 then
    (clampI 0 (w - 1) x1, clampI 0 (h - 1) (clampI 0 (h - 1) y2 - line_offset),
      clampI 0 (w - 1) x2, clampI 0 (h - 1) (clampI 0 (h - 1) y2 - line_offset), "fallback")
  else
    match best with
    | none =>
      (clampI 0 (w - 1) x1, clampI 0 (h - 1) (clampI 0 (h - 1) y2 - line_offset),
        clampI 0 (w - 1) x2, clampI 0 (h - 1) (clampI 0 (h - 1) y2 - line_offset), "fallback")
    | some (lx1, ly1, lx2, ly2) =>
      if lx2 - lx1 = 0 then
        (clampI 0 (w - 1) x1, clampI 0 (h - 1) (clampI 0 (h - 1) y2 - line_offset),
          clampI 0 (w - 1) x2, clampI 0 (h - 1) (clampI 0 (h - 1) y2 - line_offset),
          "fallback")
      else if min (extended_line_y lx1 ly1 lx2 ly2 0)
            (extended_line_y lx1 ly1 lx2 ly2
              ((clampI 0 (w - 1) x2 - clampI 0 (w - 1) x1 - 1 : Int) : ℚ))
          < ((clampI 0 (h - 1) y2 - clampI 0 (h - 1) y1 : Int) : ℚ)
              * clamped_bottom_frac min_bottom_frac then
        (clampI 0 (w - 1) x1, clampI 0 (h - 1) (clampI 0 (h - 1) y2 - line_offset),
          clampI 0 (w - 1) x2, clampI 0 (h - 1) (clampI 0 (h - 1) y2 - line_offset),
          "fallback")
      else
        (clampI 0 (w - 1) x1,
         clampI 0 (h - 1) (clampI 0 (h - 1) y1
           + roundHalfEven (extended_line_y lx1 ly1 lx2 ly2 0) - line_offset),
         clampI 0 (w - 1) x2,
         clampI 0 (h - 1) (clampI 0 (h - 1) y1
           + roundHalfEven (extended_line_y lx1 ly1 lx2 ly2
               ((clampI 0 (w - 1) x2 - clampI 0 (w - 1) x1 - 1 : Int) : ℚ)) - line_offset),
         "edge")

/-- The argparse-derived parameters of `detect_doors_from_frame` consumed
by its per-candidate evaluation loop (door_detection.py lines 318-437).
`door_max_height_frac` models `args.door_max_height_ratio` and
`door_gate_min_bottom_frac` models `args.door_gate_min_bottom_ratio`. -/
structure DoorArgs where
  max_doors : Int
  door_min_width : Int
  door_max_height_frac : ℚ
  door_negative_iou : ℚ
  door_require_edge_threshold : Bool
  door_line_offset : Int
  door_gate_min_bottom_frac : ℚ
deriving DecidableEq

/-- One iteration of the candidate-evaluation loop of
`detect_doors_from_frame` (door_detection.py lines 322-437), reduced to
the acceptance decision for one pooled detection: the capacity check, the
minimum-width check on the clamped segment, the height-ratio check, the
negative-prompt overlap check, the gate-line fit and the
require-edge-threshold gate, in source order; the result is the accepted
flag and the recorded reason string. -/
def evaluate_candidate (args : DoorArgs) (width height : Int)
    (negative_boxes : List Box) (num_rooms : Nat) (box : Box)
    (best : Option (Int × Int × Int × Int)) : Bool × String :=
  if max 1 args.max_doors ≤ (num_rooms : Int) then (false, "max_doors_reached")
  else if (clamp_segment (truncInt box.1) (truncInt box.2.2.1) width).2
      - (clamp_segment (truncInt box.1) (truncInt box.2.2.1) width).1
      < args.door_min_width then (false, "too_narrow")
  else if max 0 (min 1 args.door_max_height_frac)
      < max 1 (box.2.2.2 - box.2.1) / (height : ℚ) then (false, "too_tall_for_door")
  else if negative_boxes.any fun nb =>
      decide (max 0 (min 1 args.door_negative_iou) ≤ box_iou_xyxy box nb) then
    (false, "overlaps_negative_prompt")
  else if args.door_require_edge_threshold
      ∧ (fit_gate_line_from_box height width (truncInt box.1) (truncInt box.2.1)
          (truncInt box.2.2.1) (truncInt box.2.2.2) best args.door_line_offset
          args.door_gate_min_bottom_frac).2.2.2.2 ≠ "edge" then
    (false, "missing_threshold_edge")
  else
    (true, "accepted_" ++ (fit_gate_line_from_box height width (truncInt box.1)
      (truncInt box.2.1) (truncInt box.2.2.1) (truncInt box.2.2.2) best
      args.door_line_offset args.door_gate_min_bottom_frac).2.2.2.2)

/-- C9: for a candidate whose clamped box is non-degenerate, on which the
edge stage finds no qualifying segment (or the chosen segment is vertical
or its extension fails the lower-fraction requirement),
`fit_gate_line_from_box` returns the flat horizontal fallback line at the
clamped `y2 - line_offset` with source "fallback"; if the candidate passes
the capacity, width, height and negative-overlap checks it is accepted
with reason "accepted_fallback" when `door_require_edge_threshold` is
unset, and rejected with reason "missing_threshold_edge" when it is set. -/
theorem C9_fallback_acceptance (args : DoorArgs) (width height : Int)
    (negative_boxes : List Box) (num_rooms : Nat) (x1f y1f x2f y2f : ℚ)
    (best : Option (Int × Int × Int × Int))
    (hvalid : clampI 0 (width - 1) (truncInt x1f) < clampI 0 (width - 1) (truncInt x2f)
      ∧ clampI 0 (height - 1) (truncInt y1f) < clampI 0 (height - 1) (truncInt y2f))
    (hfail : best = none ∨ ∃ lx1 ly1 lx2 ly2 : Int, best = some (lx1, ly1, lx2, ly2) ∧
      (lx2 - lx1 = 0 ∨
        min (extended_line_y lx1 ly1 lx2 ly2 0)
            (extended_line_y lx1 ly1 lx2 ly2
              ((clampI 0 (width - 1) (truncInt x2f)
                - clampI 0 (width - 1) (truncInt x1f) - 1 : Int) : ℚ))
          < ((clampI 0 (height - 1) (truncInt y2f)
                - clampI 0 (height - 1) (truncInt y1f) : Int) : ℚ)
              * clamped_bottom_frac args.door_gate_min_bottom_frac))
    (hcap : (num_rooms : Int) < max 1 args.max_doors)
    (hwide : args.door_min_width ≤
      (clamp_segment (truncInt x1f) (truncInt x2f) width).2
        - (clamp_segment (truncInt x1f) (truncInt x2f) width).1)
    (htall : max 1 (y2f - y1f) / (height : ℚ) ≤ max 0 (min 1 args.door_max_height_frac))
    (hneg : ∀ nb ∈ negative_boxes,
      box_iou_xyxy (x1f, y1f, x2f, y2f) nb < max 0 (min 1 args.door_negative_iou)) :
    fit_gate_line_from_box height width (truncInt x1f) (truncInt y1f) (truncInt x2f)
        (truncInt y2f) best args.door_line_offset args.door_gate_min_bottom_frac
      = (clampI 0 (width - 1) (truncInt x1f),
         clampI 0 (height - 1) (clampI 0 (height - 1) (truncInt y2f) - args.door_line_offset),
         clampI 0 (width - 1) (truncInt x2f),
         clampI 0 (height - 1) (clampI 0 (height - 1) (truncInt y2f) - args.door_line_offset),
         "fallback")
    ∧ evaluate_candidate { args with door_require_edge_threshold := false } width height
        negative_boxes num_rooms (x1f, y1f, x2f, y2f) best = (true, "accepted_fallback")
    ∧ evaluate_candidate { args with door_require_edge_threshold := true } width height
        negative_boxes num_rooms (x1f, y1f, x2f, y2f) best
      = (false, "missing_threshold_edge") := by
  obtain ⟨hx, hy⟩ := hvalid
  have hnotdeg : ¬ (clampI 0 (width - 1) (truncInt x2f) ≤ clampI 0 (width - 1) (truncInt x1f)
      ∨ clampI 0 (height - 1) (truncInt y2f) ≤ clampI 0 (height - 1) (truncInt y1f)) := by
    push_neg
    exact ⟨hx, hy⟩
  have hfit : ∀ off : Int,
      fit_gate_line_from_box height width (truncInt x1f) (truncInt y1f) (truncInt x2f)
        (truncInt y2f) best off args.door_gate_min_bottom_frac
      = (clampI 0 (width - 1) (truncInt x1f),
         clampI 0 (height - 1) (clampI 0 (height - 1) (truncInt y2f) - off),
         clampI 0 (width - 1) (truncInt x2f),
         clampI 0 (height - 1) (clampI 0 (height - 1) (truncInt y2f) - off),
         "fallback") := by
    intro off
    rcases hfail with hb | ⟨lx1, ly1, lx2, ly2, hb, hf⟩
    · subst hb
      unfold fit_gate_line_from_box
      rw [if_neg hnotdeg]
    · subst hb
      unfold fit_gate_line_from_box
      rw [if_neg hnotdeg]
      dsimp only
      rcases hf with hdx | hmin
      · rw [if_pos hdx]
      · by_cases hdx0 : lx2 - lx1 = 0
        · rw [if_pos hdx0]
        · rw [if_neg hdx0, if_pos hmin]
  have hanyP : ¬ ((negative_boxes.any fun nb =>
      decide (max 0 (min 1 args.door_negative_iou)
        ≤ box_iou_xyxy (x1f, y1f, x2f, y2f) nb)) = true) := by
    intro hcontra
    rw [List.any_eq_true] at hcontra
    obtain ⟨nb, hnb, hdec⟩ := hcontra
    exact absurd (of_decide_eq_true hdec) (not_le.mpr (hneg nb hnb))
  refine ⟨hfit args.door_line_offset, ?_, ?_⟩
  · unfold evaluate_candidate
    dsimp only
    rw [if_neg (not_le.mpr hcap), if_neg (not_lt.mpr hwide), if_neg (not_lt.mpr htall),
      if_neg hanyP, if_neg (by simp), hfit args.door_line_offset]
    rfl
  · unfold evaluate_candidate
    dsimp only
    rw [if_neg (not_le.mpr hcap), if_neg (not_lt.mpr hwide), if_neg (not_lt.mpr htall),
      if_neg hanyP, hfit args.door_line_offset]
    dsimp only
    rw [if_pos ⟨rfl, by decide⟩]

/-- Closed instance of C9: a 200x350 box in a 640x480 frame with no
qualifying edge segment falls back to the flat line 12 pixels above the
clamped box bottom and is accepted as "accepted_fallback" without the
require-edge option, rejected as "missing_threshold_edge" with it. -/
theorem C9_fallback_acceptance_witness :
    fit_gate_line_from_box 480 640 (truncInt 100) (truncInt 50) (truncInt 300)
        (truncInt 400) none 12 (62 / 100)
      = (clampI 0 (640 - 1) (truncInt 100),
         clampI 0 (480 - 1) (clampI 0 (480 - 1) (truncInt 400) - 12),
         clampI 0 (640 - 1) (truncInt 300),
         clampI 0 (480 - 1) (clampI 0 (480 - 1) (truncInt 400) - 12),
         "fallback")
    ∧ evaluate_candidate ⟨4, 60, 9 / 10, 3 / 10, false, 12, 62 / 100⟩ 640 480 [] 0
        (100, 50, 300, 400) none = (true, "accepted_fallback")
    ∧ evaluate_candidate ⟨4, 60, 9 / 10, 3 / 10, true, 12, 62 / 100⟩ 640 480 [] 0
        (100, 50, 300, 400) none = (false, "missing_threshold_edge") :=
  C9_fallback_acceptance ⟨4, 60, 9 / 10, 3 / 10, false, 12, 62 / 100⟩ 640 480 [] 0
    100 50 300 400 none
    (by norm_num [clampI, truncInt])
    (Or.inl rfl)
    (by norm_num)
    (by norm_num [clamp_segment, truncInt])
    (by norm_num)
    (by intro nb hnb; exact absurd hnb (List.not_mem_nil nb))

end PeopleCounter
